import Mathlib

/-!
Verification of the planning-scraper pipeline (scrapers, manager, utils,
database) against its natural-language specification.

The Python sources are shallowly embedded: strings are Lean `String`s
(operated on through their `List Char` data), dictionaries returned by the
parsers become structures, `None`-returning fallible code becomes `Option`,
raised-and-caught exceptions become `Except`, and the SQLite table becomes an
explicit list of rows threaded through the insert operations.  External
collaborators (the network, `urllib`, wall-clock time) enter as explicit
parameters or as interface models noted in the corresponding doc comments.
-/

namespace PlanningScraper

/-! ## String utilities (utils.py, TextProcessor helpers) -/

/-- Python `str.lower()` restricted to the ASCII range used by this code
base (keywords and portal text); `Char.toLower` maps `A`-`Z` to `a`-`z` and
leaves everything else unchanged, as CPython does on ASCII. -/
def lowerStr (s : String) : List Char :=
  s.data.map Char.toLower

/-- `isPrefixChars p l` is true when `p` is a prefix of `l`
(char-by-char comparison). -/
def isPrefixChars : List Char → List Char → Bool
  | [], _ => true
  | _ :: _, [] => false
  | a :: as, b :: bs => a == b && isPrefixChars as bs

/-- Python `needle in haystack` on strings: contiguous-substring
containment. -/
def hasSubstr (needle : List Char) : List Char → Bool
  | [] => needle.isEmpty
  | c :: cs => isPrefixChars needle (c :: cs) || hasSubstr needle cs

/-- Worker for `replaceSub`; structural recursion on a fuel that bounds the
input length, so that the definition evaluates inside the kernel.  Every
step consumes at least one character, so fuel `l.length` is always enough
and the `0, l => l` branch is never reached on the intended calls. -/
def replaceSubGo (pat repl : List Char) : Nat → List Char → List Char
  | 0, l => l
  | _, [] => []
  | fuel + 1, c :: cs =>
    if isPrefixChars pat (c :: cs) then
      repl ++ replaceSubGo pat repl fuel (cs.drop (pat.length - 1))
    else
      c :: replaceSubGo pat repl fuel cs

/-- One rewrite pass of Python `str.replace(pat, repl)`: replaces every
(leftmost, non-overlapping) occurrence of `pat`. -/
def replaceSub (pat repl l : List Char) : List Char :=
  replaceSubGo pat repl l.length l

/-- Worker for `collapseWs`, fuelled like `replaceSubGo`. -/
def collapseWsGo : Nat → List Char → List Char
  | 0, l => l
  | _, [] => []
  | fuel + 1, c :: cs =>
    if c.isWhitespace then
      ' ' :: collapseWsGo fuel (cs.dropWhile Char.isWhitespace)
    else
      c :: collapseWsGo fuel cs

/-- `re.sub(r'\s+', ' ', ·)`: every maximal run of whitespace becomes a
single space. -/
def collapseWs (l : List Char) : List Char :=
  collapseWsGo l.length l

/-- Python `str.strip()`: drop leading and trailing whitespace. -/
def stripWs (l : List Char) : List Char :=
  ((l.dropWhile Char.isWhitespace).reverse.dropWhile Char.isWhitespace).reverse

/-- The apostrophe character, target of the `&#39;` HTML-entity rewrite. -/
def aposChar : Char := Char.ofNat 39

/-- The six HTML-entity rewrites of `TextProcessor.clean_text`, applied in
the dictionary insertion order. -/
def htmlEntityPairs : List (List Char × List Char) :=
  [ ("&nbsp;".data, [' ']),
    ("&amp;".data, ['&']),
    ("&lt;".data, ['<']),
    ("&gt;".data, ['>']),
    ("&quot;".data, ['"']),
    ("&#39;".data, [aposChar]) ]

/-- `TextProcessor.clean_text`: empty/null text maps to `""`; otherwise the
text is stripped, internal whitespace runs are collapsed to single spaces and
the six HTML entities are replaced. -/
def clean_text (s : String) : String :=
  if s = "" then ""
  else
    let t := collapseWs (stripWs s.data)
    ⟨htmlEntityPairs.foldl (fun acc p => replaceSub p.1 p.2 acc) t⟩

/-- The comma-space join applied to `detected_keywords` before storage. -/
def joinComma : List String → String
  | [] => ""
  | [k] => k
  | k :: ks => k ++ ", " ++ joinComma ks

/-! ## Keyword detection (utils.py, TextProcessor.detect_keywords) -/

/-- `MONITORING_KEYWORDS` from config.py. -/
def MONITORING_KEYWORDS : List String :=
  [ "remote monitoring",
    "noise monitoring",
    "vibration monitoring",
    "dust monitoring",
    "subsidence monitoring" ]

/-- `TextProcessor.detect_keywords`.  `text` is `Option String` so that
Python `None` and `""` (both falsy, both short-circuiting to `[]`) are
covered; a keyword is kept when its lowercase form occurs as a substring of
the lowercase text, and the keyword-list order is preserved. -/
def detect_keywords (text : Option String) (keywords : List String) : List String :=
  match text with
  | none => []
  | some t =>
    if t = "" then []
    else keywords.filter (fun k => hasSubstr (lowerStr k) (lowerStr t))

/-! ## Date parsing (utils.py, TextProcessor.parse_date)

The five `re.search` patterns are embedded as explicit matchers.  A bounded
group `\d{1,2}` backtracks greedily (two digits first, then one); `\w+` and
`\s+` are taken as maximal runs, which is equivalent to the regex semantics
here because each is followed by a character class disjoint from its own
(`\w` before `\s`, `\s` before `\d`); `,?` takes the comma when present,
which is likewise equivalent because a left-over comma can never satisfy the
`\s+` that follows.  `re.search` itself is the leftmost-position scan
`searchA`. -/

/-- Take exactly `n` leading decimal digits, returning them and the rest. -/
def takeDigits : Nat → List Char → Option (List Char × List Char)
  | 0, l => some ([], l)
  | _ + 1, [] => none
  | n + 1, c :: cs =>
    if c.isDigit then (takeDigits n cs).map (fun p => (c :: p.1, p.2)) else none

/-- Require the next character to be `a`. -/
def expectChar (a : Char) : List Char → Option (List Char)
  | [] => none
  | c :: cs => if c == a then some cs else none

/-- Maximal nonempty run of characters satisfying `p` (for `\w+` / `\s+`). -/
def takeRunOf (p : Char → Bool) : List Char → Option (List Char × List Char)
  | [] => none
  | c :: cs => if p c then some (c :: cs.takeWhile p, cs.dropWhile p) else none

/-- `,?`: consume a leading comma when present. -/
def skipComma : List Char → List Char
  | [] => []
  | c :: cs => if c == ',' then cs else c :: cs

/-- The word-character class `\w` (ASCII part). -/
def isWordChar (c : Char) : Bool :=
  c.isAlphanum || c == '_'

/-- Anchored match of `(\d{n1})sep(\d{n2})sep(\d{4})`. -/
def matchNumSepAt (sep : Char) (n1 n2 : Nat) (l : List Char) :
    Option (String × String × String) := do
  let (a, r1) ← takeDigits n1 l
  let r2 ← expectChar sep r1
  let (b, r3) ← takeDigits n2 r2
  let r4 ← expectChar sep r3
  let (y, _) ← takeDigits 4 r4
  pure (⟨a⟩, ⟨b⟩, ⟨y⟩)

/-- Anchored match of `(\d{1,2})sep(\d{1,2})sep(\d{4})` with greedy
backtracking on the two bounded groups. -/
def matchDMYAt (sep : Char) (l : List Char) : Option (String × String × String) :=
  matchNumSepAt sep 2 2 l <|> matchNumSepAt sep 2 1 l <|>
    matchNumSepAt sep 1 2 l <|> matchNumSepAt sep 1 1 l

/-- Anchored match of `(\d{4})-(\d{n2})-(\d{n3})`. -/
def matchIsoNumAt (n2 n3 : Nat) (l : List Char) :
    Option (String × String × String) := do
  let (y, r1) ← takeDigits 4 l
  let r2 ← expectChar '-' r1
  let (m, r3) ← takeDigits n2 r2
  let r4 ← expectChar '-' r3
  let (d, _) ← takeDigits n3 r4
  pure (⟨y⟩, ⟨m⟩, ⟨d⟩)

/-- Anchored match of `(\d{4})-(\d{1,2})-(\d{1,2})`. -/
def matchIsoAt (l : List Char) : Option (String × String × String) :=
  matchIsoNumAt 2 2 l <|> matchIsoNumAt 2 1 l <|>
    matchIsoNumAt 1 2 l <|> matchIsoNumAt 1 1 l

/-- Anchored match of `(\d{n1})\s+(\w+)\s+(\d{4})`. -/
def matchDayMonNumAt (n1 : Nat) (l : List Char) :
    Option (String × String × String) := do
  let (d, r1) ← takeDigits n1 l
  let (_, r2) ← takeRunOf Char.isWhitespace r1
  let (w, r3) ← takeRunOf isWordChar r2
  let (_, r4) ← takeRunOf Char.isWhitespace r3
  let (y, _) ← takeDigits 4 r4
  pure (⟨d⟩, ⟨w⟩, ⟨y⟩)

/-- Anchored match of `(\d{1,2})\s+(\w+)\s+(\d{4})`. -/
def matchDayMonAt (l : List Char) : Option (String × String × String) :=
  matchDayMonNumAt 2 l <|> matchDayMonNumAt 1 l

/-- Anchored match of `(\w+)\s+(\d{n2}),?\s+(\d{4})`. -/
def matchMonDayNumAt (n2 : Nat) (l : List Char) :
    Option (String × String × String) := do
  let (w, r1) ← takeRunOf isWordChar l
  let (_, r2) ← takeRunOf Char.isWhitespace r1
  let (d, r3) ← takeDigits n2 r2
  let r4 := skipComma r3
  let (_, r5) ← takeRunOf Char.isWhitespace r4
  let (y, _) ← takeDigits 4 r5
  pure (⟨w⟩, ⟨d⟩, ⟨y⟩)

/-- Anchored match of `(\w+)\s+(\d{1,2}),?\s+(\d{4})`. -/
def matchMonDayAt (l : List Char) : Option (String × String × String) :=
  matchMonDayNumAt 2 l <|> matchMonDayNumAt 1 l

/-- `re.search`: try the anchored matcher at each position, leftmost first. -/
def searchA {α : Type} (f : List Char → Option α) : List Char → Option α
  | [] => f []
  | c :: cs => f (c :: cs) <|> searchA f cs

/-- Python `str.zfill(2)` on the digit groups (all nonempty, unsigned). -/
def zfill2 (s : String) : String :=
  if s.length < 2 then "0" ++ s else s

/-- The month-name table of the `DD Month YYYY` branch (full names and
three-letter abbreviations). -/
def monthNamesDM : List (String × String) :=
  [ ("january", "01"), ("february", "02"), ("march", "03"), ("april", "04"),
    ("may", "05"), ("june", "06"), ("july", "07"), ("august", "08"),
    ("september", "09"), ("october", "10"), ("november", "11"), ("december", "12"),
    ("jan", "01"), ("feb", "02"), ("mar", "03"), ("apr", "04"),
    ("jun", "06"), ("jul", "07"), ("aug", "08"), ("sep", "09"),
    ("oct", "10"), ("nov", "11"), ("dec", "12") ]

/-- The month-name table of the `Month DD, YYYY` branch (full names only). -/
def monthNamesMD : List (String × String) :=
  [ ("january", "01"), ("february", "02"), ("march", "03"), ("april", "04"),
    ("may", "05"), ("june", "06"), ("july", "07"), ("august", "08"),
    ("september", "09"), ("october", "10"), ("november", "11"), ("december", "12") ]

/-- `month_names.get(month_name.lower())`. -/
def lookupMonth (tbl : List (String × String)) (w : String) : Option String :=
  (tbl.find? (fun p => p.1 == (⟨lowerStr w⟩ : String))).map (fun p => p.2)

/-- `f"{year}-{month.zfill(2)}-{day.zfill(2)}"`. -/
def fmtYMD (y m d : String) : String :=
  y ++ "-" ++ zfill2 m ++ "-" ++ zfill2 d

/-- `TextProcessor.parse_date`: clean the string, try the five patterns in
order; a month-name branch whose table lookup fails falls through to the
next pattern, exactly as the Python `for` loop does. -/
def parse_date (date_str : String) : Option String :=
  if date_str = "" then none
  else
    let s := (clean_text date_str).data
    ((searchA (matchDMYAt '/') s).map (fun g => fmtYMD g.2.2 g.2.1 g.1)) <|>
    ((searchA (matchDMYAt '-') s).map (fun g => fmtYMD g.2.2 g.2.1 g.1)) <|>
    ((searchA matchIsoAt s).map (fun g => fmtYMD g.1 g.2.1 g.2.2)) <|>
    ((searchA matchDayMonAt s).bind (fun g =>
      (lookupMonth monthNamesDM g.2.1).map (fun mn => g.2.2 ++ "-" ++ mn ++ "-" ++ zfill2 g.1))) <|>
    ((searchA matchMonDayAt s).bind (fun g =>
      (lookupMonth monthNamesMD g.1).map (fun mn => g.2.2 ++ "-" ++ mn ++ "-" ++ zfill2 g.2.1)))

/-- `parse_date` as called on an already-optional value
(the submission-date dictionary entry may be Python `None`, which is falsy). -/
def parse_date_opt : Option String → Option String
  | none => none
  | some s => parse_date s

/-! ## URL handling

`urlparse`/`urljoin` are Python standard-library collaborators (external to
the repository); they are modelled at their interface on the cases this code
exercises: scheme/netloc extraction, empty base or url, URLs that carry
their own scheme (returned as-is, as for non-relative schemes), and plain
relative-reference resolution.  Dot-segment normalization and
query/fragment splitting are omitted; no claim depends on them. -/

structure UrlParts where
  scheme : String
  netloc : String
  rest : String
deriving DecidableEq, Repr

/-- Characters allowed in a URL scheme after the leading letter. -/
def isSchemeChar (c : Char) : Bool :=
  c.isAlphanum || c == '+' || c == '-' || c == '.'

/-- Model of `urllib.parse.urlparse` (scheme and netloc components): the
scheme is a leading alphabetic-initial run of scheme characters terminated
by a colon, lowercased; the netloc follows a `//` and runs to the next
`/`, `?` or `#`. -/
def urlparse (url : String) : UrlParts :=
  let l := url.data
  let i := l.takeWhile isSchemeChar
  let hasScheme :=
    decide (i ≠ []) && (match l.head? with
      | some c => c.isAlpha
      | none => false) && (l.drop i.length).head? == some ':'
  let (scheme, rem) :=
    if hasScheme then ((⟨i.map Char.toLower⟩ : String), l.drop (i.length + 1))
    else ("", l)
  match rem with
  | '/' :: '/' :: tail =>
    let net := tail.takeWhile (fun c => !(c == '/' || c == '?' || c == '#'))
    ⟨scheme, ⟨net⟩, ⟨tail.drop net.length⟩⟩
  | _ => ⟨scheme, "", ⟨rem⟩⟩

/-- `ValidationUtils.is_valid_url`: scheme and netloc both present. -/
def is_valid_url (url : String) : Bool :=
  (urlparse url).scheme ≠ "" && (urlparse url).netloc ≠ ""

/-- Directory part of a path: everything up to and including the last `/`. -/
def dirOfPath (p : List Char) : List Char :=
  (p.reverse.dropWhile (fun c => !(c == '/'))).reverse

/-- Model of `urllib.parse.urljoin` (external standard library): empty base
or url cases, url with its own scheme returned as-is, otherwise resolution
of an absolute or relative path against the scheme and netloc of the base. -/
def urljoin (base url : String) : String :=
  if base = "" then url
  else if url = "" then base
  else
    let u := urlparse url
    if u.scheme ≠ "" then url
    else
      let b := urlparse base
      let prefixStr := (if b.scheme = "" then "" else b.scheme ++ "://") ++ b.netloc
      if url.data.head? == some '/' then prefixStr ++ url
      else prefixStr ++ (⟨dirOfPath b.rest.data⟩ : String) ++ url

/-! ## Validation (utils.py, ValidationUtils) -/

/-- `ValidationUtils.is_valid_project_id`: non-empty, at least 4 characters,
and containing at least one `[A-Za-z0-9]` character. -/
def is_valid_project_id (project_id : String) : Bool :=
  if project_id = "" || project_id.length < 4 then false
  else project_id.data.any Char.isAlphanum

/-- The dictionary assembled by the row parsers and handed to
`validate_application_data` (all keys present at every call site). -/
structure RawApp where
  project_id : String
  borough : String
  title : String
  address : String
  submission_date : Option String
  application_url : String
  detected_keywords : List String
  source_url : String
deriving DecidableEq, Repr

/-- The dictionary returned by `validate_application_data`; the URL keys are
optional because an invalid URL is simply not copied into the result. -/
structure ValidatedApp where
  project_id : String
  borough : String
  title : String
  address : String
  submission_date : Option String
  application_url : Option String
  detected_keywords : List String
  source_url : Option String
deriving DecidableEq, Repr

/-- `ValidationUtils.validate_application_data` on the full dictionary the
parsers build: a falsy required field raises `ValueError` (here
`Except.error`); optional text fields are cleaned; the submission date is
re-parsed; URL fields are kept only when valid; `detected_keywords` is
copied verbatim. -/
def validate_application_data (d : RawApp) : Except String ValidatedApp :=
  if d.project_id = "" then .error "Missing required field: project_id"
  else if d.borough = "" then .error "Missing required field: borough"
  else .ok
    { project_id := clean_text d.project_id
      borough := clean_text d.borough
      title := clean_text d.title
      address := clean_text d.address
      submission_date := parse_date_opt d.submission_date
      application_url :=
        if is_valid_url d.application_url then some d.application_url else none
      detected_keywords := d.detected_keywords
      source_url :=
        if is_valid_url d.source_url then some d.source_url else none }

/-! ## Row parsing (scrapers.py)

An HTML result row is abstracted to its list of `td` cells; each cell has
its text and possibly an `a` link (`text`, and `href` defaulting to the empty string).  The
detail-page fetch (`get_application_details`) is a network effect and enters
as the `details` parameter; `detect_keywords` is called with the default
keyword list `MONITORING_KEYWORDS`, as at the call sites. -/

structure Link where
  text : String
  href : String
deriving DecidableEq, Repr

structure Cell where
  text : String
  link : Option Link
deriving DecidableEq, Repr

/-- The anchor element of the first cell of a row. -/
def rowLink : List Cell → Option Link
  | [] => none
  | c :: _ => c.link

/-- `IdoxScraper.parse_application_row`: needs at least 4 cells and a link
in the first; validates the project id; takes address and title from cells
1 and 2 and the date from the last cell; keeps the row only when the
detail text contains a monitoring keyword; any `ValueError` from
`validate_application_data` is caught and turned into `None`. -/
def parse_application_row (borough base_url search_url : String)
    (cells : List Cell) (details : String) : Option ValidatedApp :=
  match cells with
  | c0 :: c1 :: c2 :: c3 :: rest =>
    match c0.link with
    | none => none
    | some lnk =>
      let project_id := clean_text lnk.text
      if !is_valid_project_id project_id then none
      else
        let application_url := urljoin base_url lnk.href
        let address := clean_text c1.text
        let title := clean_text c2.text
        let date_text := clean_text (rest.getLastD c3).text
        let submission_date := parse_date date_text
        let detected := detect_keywords (some details) MONITORING_KEYWORDS
        if detected = [] then none
        else
          match validate_application_data
              { project_id := project_id, borough := borough, title := title
                address := address, submission_date := submission_date
                application_url := application_url
                detected_keywords := detected, source_url := search_url } with
          | .error _ => none
          | .ok v => some v
  | _ => none

/-- `SouthwarkScraper.parse_application_row`: same shape with a 3-cell
minimum and no date column (`submission_date` is `None`). -/
def parse_southwark_row (borough base_url search_url : String)
    (cells : List Cell) (details : String) : Option ValidatedApp :=
  match cells with
  | c0 :: c1 :: c2 :: _ =>
    match c0.link with
    | none => none
    | some lnk =>
      let project_id := clean_text lnk.text
      if !is_valid_project_id project_id then none
      else
        let application_url := urljoin base_url lnk.href
        let address := clean_text c1.text
        let title := clean_text c2.text
        let detected := detect_keywords (some details) MONITORING_KEYWORDS
        if detected = [] then none
        else
          match validate_application_data
              { project_id := project_id, borough := borough, title := title
                address := address, submission_date := none
                application_url := application_url
                detected_keywords := detected, source_url := search_url } with
          | .error _ => none
          | .ok v => some v
  | _ => none

/-- `SeleniumScraper.parse_selenium_row`: 3-cell minimum; keyword detection
runs over `f"{title} {address}".lower()` instead of a fetched detail page. -/
def parse_selenium_row (borough base_url search_url : String)
    (cells : List Cell) : Option ValidatedApp :=
  match cells with
  | c0 :: c1 :: c2 :: _ =>
    match c0.link with
    | none => none
    | some lnk =>
      let project_id := clean_text lnk.text
      if !is_valid_project_id project_id then none
      else
        let application_url := urljoin base_url lnk.href
        let address := clean_text c1.text
        let title := clean_text c2.text
        let full_text : String := ⟨lowerStr (title ++ " " ++ address)⟩
        let detected := detect_keywords (some full_text) MONITORING_KEYWORDS
        if detected = [] then none
        else
          match validate_application_data
              { project_id := project_id, borough := borough, title := title
                address := address, submission_date := none
                application_url := application_url
                detected_keywords := detected, source_url := search_url } with
          | .error _ => none
          | .ok v => some v
  | _ => none

/-- `IdoxScraper.get_application_details` (and the Southwark twin) at its
observable interface: the network exchange and HTML text extraction are
external, entering as the optional fetched page text; a failed request
(robots denial, exhausted retries, or a caught exception — the outcome for
any URL the HTTP client cannot handle) yields `""`, a successful one the
cleaned extracted text. -/
def get_application_details (fetched : Option String) : String :=
  match fetched with
  | none => ""
  | some t => clean_text t

/-- `IdoxScraper.parse_application_row` with its detail fetch composed in,
as at the call site: the detail text is fetched from the row of cells via
its own computed application URL.  (When the project-id guard fails first,
the source skips the fetch; composing it unconditionally is observably
equivalent since the result is `None` either way.) -/
def parse_application_row_live (borough base_url search_url : String)
    (cells : List Cell) (fetch : String → Option String) : Option ValidatedApp :=
  match rowLink cells with
  | none => none
  | some lnk =>
    parse_application_row borough base_url search_url cells
      (get_application_details (fetch (urljoin base_url lnk.href)))

/-- `SouthwarkScraper.parse_application_row` with its detail fetch composed
in, as at the call site. -/
def parse_southwark_row_live (borough base_url search_url : String)
    (cells : List Cell) (fetch : String → Option String) : Option ValidatedApp :=
  match rowLink cells with
  | none => none
  | some lnk =>
    parse_southwark_row borough base_url search_url cells
      (get_application_details (fetch (urljoin base_url lnk.href)))

/-! ## Database (database.py, PlanningDatabase)

The `planning_applications` table is a list of rows; its
`UNIQUE(project_id, borough)` constraint together with `INSERT OR IGNORE`
becomes an insert that appends only when no row with the same key exists.
`datetime.now().isoformat()` enters as the `now` parameter. -/

structure DbRow where
  project_id : String
  borough : String
  title : Option String
  address : Option String
  submission_date : Option String
  application_url : Option String
  detected_keywords : String
  scraped_timestamp : String
  source_url : Option String
deriving DecidableEq, Repr

/-- The tuple bound by the `INSERT OR IGNORE` statement for one
application dictionary. -/
def rowOfApp (now : String) (a : ValidatedApp) : DbRow :=
  { project_id := a.project_id
    borough := a.borough
    title := some a.title
    address := some a.address
    submission_date := a.submission_date
    application_url := a.application_url
    detected_keywords := joinComma a.detected_keywords
    scraped_timestamp := now
    source_url := a.source_url }

/-- Whether the table already holds a row with this `(project_id, borough)`
key. -/
def hasKey (db : List DbRow) (pid bor : String) : Bool :=
  db.any (fun x => x.project_id == pid && x.borough == bor)

/-- `INSERT OR IGNORE` of one row: returns the new table and whether
`cursor.rowcount > 0` (a row was actually inserted). -/
def insertOrIgnoreRow (db : List DbRow) (r : DbRow) : List DbRow × Bool :=
  if hasKey db r.project_id r.borough then (db, false) else (db ++ [r], true)

/-- `PlanningDatabase.bulk_insert_applications`: inserts each application in
order, counting the actually-new rows; returns the new table together with
`(total_count, new_count)` where `total_count = len(applications)`. -/
def bulk_insert_applications (db : List DbRow) (apps : List ValidatedApp)
    (now : String) : List DbRow × Nat × Nat :=
  let st := apps.foldl
    (fun (st : List DbRow × Nat) a =>
      let p := insertOrIgnoreRow st.1 (rowOfApp now a)
      (p.1, if p.2 then st.2 + 1 else st.2))
    (db, 0)
  (st.1, apps.length, st.2)

/-! ## Manager (scraper_manager.py, ScrapingManager) -/

/-- One iteration-structure of the keyword loop of
`ScrapingManager.scrape_single_borough`: the loop breaks when
`not self.is_running and len(keywords) > 1`, the search for the keyword is issued
otherwise, a raising search is caught and the loop continues.  `total` is
the fixed `len(keywords)`; the returned pair is the list of keywords for
which a search was issued (in order) and the accumulated
`all_applications`. -/
def scrape_loop (is_running : Bool) (total : Nat)
    (search : String → Except String (List ValidatedApp)) :
    List String → List String × List ValidatedApp
  | [] => ([], [])
  | k :: ks =>
    if !is_running && decide (total > 1) then ([], [])
    else
      let rest := scrape_loop is_running total search ks
      match search k with
      | .ok apps => (k :: rest.1, apps ++ rest.2)
      | .error _ => (k :: rest.1, rest.2)

/-- The keywords for which `scrape_single_borough` issues a search. -/
def keywords_searched (is_running : Bool) (keywords : List String)
    (search : String → Except String (List ValidatedApp)) : List String :=
  (scrape_loop is_running keywords.length search keywords).1

/-- The duplicate-removal dictionary of `scrape_single_borough` (and,
identically, of `IdoxScraper.scrape_applications`): an application is kept
when its `project_id` is truthy and not seen before; `seen` is the list of
keys already in the dictionary. -/
def dedupAux (seen : List String) : List ValidatedApp → List ValidatedApp
  | [] => []
  | a :: as =>
    if a.project_id ≠ "" && !seen.contains a.project_id then
      a :: dedupAux (a.project_id :: seen) as
    else
      dedupAux seen as

/-- `list(unique_applications.values())` after the dedup loop. -/
def dedupByProjectId (apps : List ValidatedApp) : List ValidatedApp :=
  dedupAux [] apps

/-- The observable outcome of one `scrape_single_borough` run. -/
structure SingleScrapeOutcome where
  searched : List String
  final_apps : List ValidatedApp
  db : List DbRow
  total_count : Nat
  new_count : Nat
deriving Repr

/-- `ScrapingManager.scrape_single_borough` (data path): run the keyword
loop, deduplicate the accumulated applications by `project_id`, and persist
the final set through `bulk_insert_applications`.  `is_running` is the
manager flag (set only by `scrape_all_boroughs`; `False` on a fresh manager,
as in the standalone `scrape_borough` entry point). -/
def scrape_single_borough (is_running : Bool) (keywords : List String)
    (search : String → Except String (List ValidatedApp))
    (db : List DbRow) (now : String) : SingleScrapeOutcome :=
  let loopOut := scrape_loop is_running keywords.length search keywords
  let final := dedupByProjectId loopOut.2
  let ins := bulk_insert_applications db final now
  { searched := loopOut.1
    final_apps := final
    db := ins.1
    total_count := ins.2.1
    new_count := ins.2.2 }

/-- The per-borough result dictionary collected by `scrape_all_boroughs`:
the success dictionary of `scrape_single_borough` carries counts and no
`error` key; the failure dictionary carries an `error` and no counts. -/
structure BoroughResult where
  success : Bool
  borough : String
  error : Option String
  total_found : Option Nat
  new_applications : Option Nat
deriving DecidableEq, Repr

/-- `ScrapingManager.scrape_all_boroughs`: each borough worker either
returns a result dictionary or raises; a raising worker is caught at
`future.result()` and converted to a failed entry for that borough.
`order` is the completion order of the thread pool (any permutation of the
configured boroughs). -/
def scrape_all_boroughs (workers : String → Except String BoroughResult)
    (order : List String) : List BoroughResult :=
  order.map (fun b =>
    match workers b with
    | .ok r => r
    | .error e =>
      { success := false, borough := b, error := some e
        total_found := none, new_applications := none })

/-- Number of stored rows carrying a given `(project_id, borough)` key. -/
def keyCount (db : List DbRow) (pid bor : String) : Nat :=
  db.countP (fun r => r.project_id == pid && r.borough == bor)

/-- The body of the result-collection loop of `scrape_all_boroughs`: the
entry contributed for one borough. -/
def collectResult (workers : String → Except String BoroughResult)
    (b : String) : BoroughResult :=
  match workers b with
  | .ok r => r
  | .error e =>
    { success := false, borough := b, error := some e
      total_found := none, new_applications := none }

/-- The outer try/except of `ScrapingManager.scrape_single_borough`
(lines 309-352): a borough run that completes yields the success dictionary
with its counts and no error key; an exception escaping the run body is
caught at this Borough Scraper boundary and becomes the failure dictionary
carrying the exception message. -/
def scrape_single_guard (borough : String)
    (body : Except String SingleScrapeOutcome) : BoroughResult :=
  match body with
  | .ok out =>
    { success := true, borough := borough, error := none
      total_found := some out.final_apps.length
      new_applications := some out.new_count }
  | .error e =>
    { success := false, borough := borough, error := some e
      total_found := none, new_applications := none }

/-! ## Spec-side definitions

These two definitions transcribe wording of the specification (not code);
they exist only to be compared against the code-derived definitions. -/

/-- Spec wording for the project-id validation rule: the id contains at
least one alphanumeric run of length at least 4. -/
def specHasAlnumRunGe4 (s : String) : Bool :=
  s.data.tails.any (fun t => decide (4 ≤ (t.takeWhile Char.isAlphanum).length))

/-- Spec wording for the normalized-date shape: four digits, hyphen, two
digits, hyphen, two digits. -/
def isIsoShaped (s : String) : Bool :=
  match s.data with
  | [y1, y2, y3, y4, h1, m1, m2, h2, d1, d2] =>
    y1.isDigit && y2.isDigit && y3.isDigit && y4.isDigit &&
      h1 == '-' && m1.isDigit && m2.isDigit && h2 == '-' &&
      d1.isDigit && d2.isDigit
  | _ => false

/-! ## Concrete evaluations -/

example : detect_keywords (some "Noise Monitoring") ["noise monitoring"] = ["noise monitoring"] := by
  decide

example : detect_keywords (some "a") ["a", "a"] = ["a", "a"] := by decide

example : parse_date "15/01/2024" = some "2024-01-15" := by decide
example : parse_date "99/99/2024" = some "2024-99-99" := by decide
example : parse_date "2024-1-5" = some "2024-01-05" := by decide
example : parse_date "15 March 2024" = some "2024-03-15" := by decide
example : parse_date "March 15, 2024" = some "2024-03-15" := by decide
example : parse_date "not a date" = none := by decide
example : parse_date "" = none := by decide

example : is_valid_url "https://camdenpas.camden.gov.uk/x" = true := by decide
example : is_valid_url "" = false := by decide
example : is_valid_url "javascript:void(0)" = false := by decide
example : urljoin "https://a.gov.uk/apps/" "detail.do?id=1" =
    "https://a.gov.uk/apps/detail.do?id=1" := by decide
example : urljoin "https://a.gov.uk" "javascript:void(0)" = "javascript:void(0)" := by
  decide

example : is_valid_project_id "OK" = false := by decide
example : is_valid_project_id "APP123456" = true := by decide
example : is_valid_project_id "A---" = true := by decide

/-! ## Lemmas about keyword detection -/

theorem detect_keywords_sublist (t : Option String) (K : List String) :
    (detect_keywords t K).Sublist K := by
  match t with
  | none => exact List.nil_sublist K
  | some s =>
    simp only [detect_keywords]
    split
    · exact List.nil_sublist K
    · exact List.filter_sublist K

theorem detect_keywords_nodup (t : Option String) (K : List String)
    (hK : K.Nodup) : (detect_keywords t K).Nodup := by
  match t with
  | none => exact List.nodup_nil
  | some s =>
    simp only [detect_keywords]
    split
    · exact List.nodup_nil
    · exact hK.filter _

theorem detect_keywords_mem (s : String) (hs : s ≠ "") (K : List String)
    (k : String) :
    k ∈ detect_keywords (some s) K ↔
      k ∈ K ∧ hasSubstr (lowerStr k) (lowerStr s) = true := by
  simp only [detect_keywords, if_neg hs, List.mem_filter]

/-! ## Claim theorems -/

/-- Claim C1, counterexample: with the duplicated keyword list
`["a", "a"]` and text `"a"`, `detect_keywords` returns the keyword `"a"`
twice, so the claimed "each keyword appearing at most once in the result"
fails for a keyword list with duplicates. -/
theorem c1_counterexample :
    detect_keywords (some "a") ["a", "a"] = ["a", "a"] ∧
      ¬(detect_keywords (some "a") ["a", "a"]).Nodup := by
  constructor
  · decide
  · decide

/-- Claim C1 (amended): for every text `T` and keyword list `K`,
`detect_keywords` returns a subsequence of `K` in order; provided `K`
itself has no duplicate keywords, each keyword appears at most once; for
non-empty text a keyword is in the result exactly when its lowercase form
is a substring of the lowercase text; and null or empty text yields the
empty result. -/
theorem c1_detect_keywords_spec (t : Option String) (K : List String)
    (hK : K.Nodup) :
    (detect_keywords t K).Sublist K ∧
      (detect_keywords t K).Nodup ∧
      (∀ s : String, s ≠ "" → ∀ k : String,
        (k ∈ detect_keywords (some s) K ↔
          k ∈ K ∧ hasSubstr (lowerStr k) (lowerStr s) = true)) ∧
      detect_keywords none K = [] ∧ detect_keywords (some "") K = [] := by
  refine ⟨detect_keywords_sublist t K, detect_keywords_nodup t K hK, ?_, rfl, rfl⟩
  intro s hs k
  exact detect_keywords_mem s hs K k

/-- Claim C1 witness: the amended statement applied to the configured
keyword list and a concrete text. -/
theorem c1_witness :
    MONITORING_KEYWORDS.Nodup ∧
      (detect_keywords (some "Noise Monitoring survey") MONITORING_KEYWORDS).Sublist
        MONITORING_KEYWORDS :=
  ⟨by decide,
    (c1_detect_keywords_spec (some "Noise Monitoring survey") MONITORING_KEYWORDS
      (by decide)).1⟩

/-- Claim C5, counterexample: `"A---"` has no alphanumeric run of length at
least 4 (its longest run has length 1), yet `is_valid_project_id` accepts
it — the implemented rule is "length at least 4 and at least one
alphanumeric character", not "contains an alphanumeric run of length at
least 4". -/
theorem c5_counterexample :
    is_valid_project_id "A---" = true ∧ specHasAlnumRunGe4 "A---" = false := by
  constructor
  · decide
  · decide

/-- Claim C5 (amended): a candidate id is accepted by
`is_valid_project_id` exactly when it has at least 4 characters and
contains at least one alphanumeric character; in particular `"OK"` is
rejected and `"APP123456"` accepted; and a candidate whose id fails this
rule is discarded by `parse_application_row`. -/
theorem c5_project_id_rule (p : String) (borough base_url search_url : String)
    (cells : List Cell) (details : String) (lnk : Link)
    (hl : rowLink cells = some lnk)
    (hv : is_valid_project_id (clean_text lnk.text) = false) :
    (is_valid_project_id p =
      (decide (4 ≤ p.length) && p.data.any Char.isAlphanum)) ∧
      is_valid_project_id "OK" = false ∧
      is_valid_project_id "APP123456" = true ∧
      parse_application_row borough base_url search_url cells details = none := by
  refine ⟨?_, by decide, by decide, ?_⟩
  · simp only [is_valid_project_id]
    by_cases h0 : p = ""
    · subst h0
      decide
    · by_cases h4 : p.length < 4
      · have h4' : ¬(4 ≤ p.length) := by omega
        simp [h0, h4, h4']
      · have h4' : 4 ≤ p.length := by omega
        simp [h0, h4, h4']
  · match cells with
    | [] => rfl
    | c0 :: t0 =>
      simp only [rowLink] at hl
      match t0 with
      | [] => simp [parse_application_row]
      | [c1] => simp [parse_application_row]
      | [c1, c2] => simp [parse_application_row]
      | c1 :: c2 :: c3 :: rest =>
        simp only [parse_application_row, hl, hv]
        rfl

/-- Claim C5 witness: the amended rule evaluated at `"APP123456"` together
with the parse-time discard on a concrete short-id row. -/
theorem c5_witness :
    is_valid_project_id "APP123456" =
      (decide (4 ≤ ("APP123456" : String).length) &&
        ("APP123456" : String).data.any Char.isAlphanum) ∧
      parse_application_row "Camden" "https://camdenpas.camden.gov.uk" "u"
        [⟨"", some ⟨"OK", "x.do"⟩⟩, ⟨"addr", none⟩, ⟨"title", none⟩,
          ⟨"15/01/2024", none⟩] "noise monitoring" = none := by
  have h := c5_project_id_rule "APP123456" "Camden"
    "https://camdenpas.camden.gov.uk" "u"
    [⟨"", some ⟨"OK", "x.do"⟩⟩, ⟨"addr", none⟩, ⟨"title", none⟩,
      ⟨"15/01/2024", none⟩] "noise monitoring" ⟨"OK", "x.do"⟩ (by decide)
    (by decide)
  exact ⟨h.1, h.2.2.2⟩

/-- Claim C7: `parse_date` maps `"15/01/2024"` to `"2024-01-15"`, and on
every input it totally returns either `none` or some value — exceptions
cannot arise because every operation in the embedded code path (regex
search, table lookup, string formatting) is total; representative
unparsable inputs yield `none`. -/
theorem c7_parse_date_basic :
    parse_date "15/01/2024" = some "2024-01-15" ∧
      (∀ s : String, parse_date s = none ∨ ∃ r, parse_date s = some r) ∧
      parse_date "not a date" = none ∧ parse_date "" = none := by
  refine ⟨by decide, ?_, by decide, by decide⟩
  intro s
  match h : parse_date s with
  | none => exact Or.inl rfl
  | some r => exact Or.inr ⟨r, rfl⟩

/-! ## Shape lemmas for the normalized date -/

theorem orElseSome {α : Type} {a b : Option α} {v : α}
    (h : (a <|> b) = some v) : a = some v ∨ b = some v := by
  cases a with
  | none => right; simpa using h
  | some x => left; simpa using h

theorem takeDigits_spec {n : Nat} {l ds r : List Char}
    (h : takeDigits n l = some (ds, r)) :
    ds.length = n ∧ ∀ c ∈ ds, c.isDigit = true := by
  induction n generalizing l ds r with
  | zero =>
    simp only [takeDigits, Option.some.injEq, Prod.mk.injEq] at h
    obtain ⟨h1, h2⟩ := h
    subst h1
    exact ⟨rfl, by simp⟩
  | succ m ih =>
    match l with
    | [] => simp [takeDigits] at h
    | c :: cs =>
      simp only [takeDigits] at h
      split at h
      · rename_i hc
        cases e : takeDigits m cs with
        | none => rw [e] at h; simp at h
        | some p =>
          rw [e] at h
          obtain ⟨ds0, r0⟩ := p
          simp only [Option.map_some', Option.some.injEq, Prod.mk.injEq] at h
          obtain ⟨h1, h2⟩ := h
          obtain ⟨hlen, hdig⟩ := ih e
          subst h1
          refine ⟨by simp [hlen], ?_⟩
          intro x hx
          rcases List.mem_cons.1 hx with hx | hx
          · subst hx; exact hc
          · exact hdig x hx
      · simp at h

theorem zfill2_shape {s : String}
    (hd : ∀ c ∈ s.data, c.isDigit = true)
    (hl : s.data.length = 1 ∨ s.data.length = 2) :
    ∃ a b, (zfill2 s).data = [a, b] ∧ a.isDigit = true ∧ b.isDigit = true := by
  rcases hl with hl | hl
  · obtain ⟨a, ha⟩ := List.length_eq_one.1 hl
    have hlen : s.length < 2 := by
      simp only [String.length, hl]
      omega
    refine ⟨'0', a, ?_, by decide, ?_⟩
    · simp only [zfill2, if_pos hlen]
      show ("0" ++ s).data = ['0', a]
      rw [String.data_append, ha]
      rfl
    · exact hd a (by simp [ha])
  · obtain ⟨a, b, hab⟩ := List.length_eq_two.1 hl
    have hlen : ¬(s.length < 2) := by
      simp only [String.length, hl]
      omega
    refine ⟨a, b, ?_, ?_, ?_⟩
    · simp only [zfill2, if_neg hlen, hab]
    · exact hd a (by simp [hab])
    · exact hd b (by simp [hab])

theorem iso_of_parts {y mm dd : String}
    (hy : ∃ a b c d, y.data = [a, b, c, d] ∧ a.isDigit = true ∧
      b.isDigit = true ∧ c.isDigit = true ∧ d.isDigit = true)
    (hm : ∃ a b, mm.data = [a, b] ∧ a.isDigit = true ∧ b.isDigit = true)
    (hd : ∃ a b, dd.data = [a, b] ∧ a.isDigit = true ∧ b.isDigit = true) :
    isIsoShaped (y ++ "-" ++ mm ++ "-" ++ dd) = true ∧
      (y ++ "-" ++ mm ++ "-" ++ dd).length = 10 := by
  obtain ⟨y1, y2, y3, y4, hy, hy1, hy2, hy3, hy4⟩ := hy
  obtain ⟨m1, m2, hm, hm1, hm2⟩ := hm
  obtain ⟨d1, d2, hd, hd1, hd2⟩ := hd
  have hdata : (y ++ "-" ++ mm ++ "-" ++ dd).data =
      [y1, y2, y3, y4, '-', m1, m2, '-', d1, d2] := by
    simp only [String.data_append, hy, hm, hd]
    rfl
  constructor
  · simp only [isIsoShaped, hdata, hy1, hy2, hy3, hy4, hm1, hm2, hd1, hd2]
    decide
  · show (y ++ "-" ++ mm ++ "-" ++ dd).data.length = 10
    rw [hdata]
    rfl

theorem four_digits_of {s : String}
    (hlen : s.data.length = 4) (hd : ∀ c ∈ s.data, c.isDigit = true) :
    ∃ a b c d, s.data = [a, b, c, d] ∧ a.isDigit = true ∧
      b.isDigit = true ∧ c.isDigit = true ∧ d.isDigit = true := by
  match e : s.data, hlen with
  | [a, b, c, d], _ =>
    exact ⟨a, b, c, d, rfl, hd a (by rw [e]; simp), hd b (by rw [e]; simp),
      hd c (by rw [e]; simp), hd d (by rw [e]; simp)⟩

theorem matchNumSepAt_spec {sep : Char} {n1 n2 : Nat} {l : List Char}
    {a b y : String} (h : matchNumSepAt sep n1 n2 l = some (a, b, y)) :
    (a.data.length = n1 ∧ ∀ c ∈ a.data, c.isDigit = true) ∧
      (b.data.length = n2 ∧ ∀ c ∈ b.data, c.isDigit = true) ∧
      (y.data.length = 4 ∧ ∀ c ∈ y.data, c.isDigit = true) := by
  simp only [matchNumSepAt, bind, Option.bind_eq_some] at h
  obtain ⟨⟨da, r1⟩, h1, h⟩ := h
  obtain ⟨r2, h2, h⟩ := h
  obtain ⟨⟨db, r3⟩, h3, h⟩ := h
  obtain ⟨r4, h4, h⟩ := h
  obtain ⟨⟨dy, r5⟩, h5, h⟩ := h
  simp only [pure, Option.some.injEq, Prod.mk.injEq] at h
  obtain ⟨ha, hb, hy⟩ := h
  subst ha hb hy
  exact ⟨takeDigits_spec h1, takeDigits_spec h3, takeDigits_spec h5⟩

theorem matchDMYAt_spec {sep : Char} {l : List Char} {g : String × String × String}
    (h : matchDMYAt sep l = some g) :
    ((g.1.data.length = 1 ∨ g.1.data.length = 2) ∧ ∀ c ∈ g.1.data, c.isDigit = true) ∧
      ((g.2.1.data.length = 1 ∨ g.2.1.data.length = 2) ∧
        ∀ c ∈ g.2.1.data, c.isDigit = true) ∧
      (g.2.2.data.length = 4 ∧ ∀ c ∈ g.2.2.data, c.isDigit = true) := by
  obtain ⟨a, b, y⟩ := g
  simp only [matchDMYAt] at h
  rcases orElseSome h with h | h
  · obtain ⟨⟨l1, d1⟩, ⟨l2, d2⟩, hy⟩ := matchNumSepAt_spec h
    exact ⟨⟨Or.inr l1, d1⟩, ⟨Or.inr l2, d2⟩, hy⟩
  rcases orElseSome h with h | h
  · obtain ⟨⟨l1, d1⟩, ⟨l2, d2⟩, hy⟩ := matchNumSepAt_spec h
    exact ⟨⟨Or.inr l1, d1⟩, ⟨Or.inl l2, d2⟩, hy⟩
  rcases orElseSome h with h | h
  · obtain ⟨⟨l1, d1⟩, ⟨l2, d2⟩, hy⟩ := matchNumSepAt_spec h
    exact ⟨⟨Or.inl l1, d1⟩, ⟨Or.inr l2, d2⟩, hy⟩
  · obtain ⟨⟨l1, d1⟩, ⟨l2, d2⟩, hy⟩ := matchNumSepAt_spec h
    exact ⟨⟨Or.inl l1, d1⟩, ⟨Or.inl l2, d2⟩, hy⟩

theorem matchIsoNumAt_spec {n2 n3 : Nat} {l : List Char} {y m d : String}
    (h : matchIsoNumAt n2 n3 l = some (y, m, d)) :
    (y.data.length = 4 ∧ ∀ c ∈ y.data, c.isDigit = true) ∧
      (m.data.length = n2 ∧ ∀ c ∈ m.data, c.isDigit = true) ∧
      (d.data.length = n3 ∧ ∀ c ∈ d.data, c.isDigit = true) := by
  simp only [matchIsoNumAt, bind, Option.bind_eq_some] at h
  obtain ⟨⟨dy, r1⟩, h1, h⟩ := h
  obtain ⟨r2, h2, h⟩ := h
  obtain ⟨⟨dm, r3⟩, h3, h⟩ := h
  obtain ⟨r4, h4, h⟩ := h
  obtain ⟨⟨dd, r5⟩, h5, h⟩ := h
  simp only [pure, Option.some.injEq, Prod.mk.injEq] at h
  obtain ⟨hy, hm, hd⟩ := h
  subst hy hm hd
  exact ⟨takeDigits_spec h1, takeDigits_spec h3, takeDigits_spec h5⟩

theorem matchIsoAt_spec {l : List Char} {g : String × String × String}
    (h : matchIsoAt l = some g) :
    (g.1.data.length = 4 ∧ ∀ c ∈ g.1.data, c.isDigit = true) ∧
      ((g.2.1.data.length = 1 ∨ g.2.1.data.length = 2) ∧
        ∀ c ∈ g.2.1.data, c.isDigit = true) ∧
      ((g.2.2.data.length = 1 ∨ g.2.2.data.length = 2) ∧
        ∀ c ∈ g.2.2.data, c.isDigit = true) := by
  obtain ⟨y, m, d⟩ := g
  simp only [matchIsoAt] at h
  rcases orElseSome h with h | h
  · obtain ⟨hy, ⟨l2, d2⟩, ⟨l3, d3⟩⟩ := matchIsoNumAt_spec h
    exact ⟨hy, ⟨Or.inr l2, d2⟩, ⟨Or.inr l3, d3⟩⟩
  rcases orElseSome h with h | h
  · obtain ⟨hy, ⟨l2, d2⟩, ⟨l3, d3⟩⟩ := matchIsoNumAt_spec h
    exact ⟨hy, ⟨Or.inr l2, d2⟩, ⟨Or.inl l3, d3⟩⟩
  rcases orElseSome h with h | h
  · obtain ⟨hy, ⟨l2, d2⟩, ⟨l3, d3⟩⟩ := matchIsoNumAt_spec h
    exact ⟨hy, ⟨Or.inl l2, d2⟩, ⟨Or.inr l3, d3⟩⟩
  · obtain ⟨hy, ⟨l2, d2⟩, ⟨l3, d3⟩⟩ := matchIsoNumAt_spec h
    exact ⟨hy, ⟨Or.inl l2, d2⟩, ⟨Or.inl l3, d3⟩⟩

theorem matchDayMonNumAt_spec {n1 : Nat} {l : List Char} {d w y : String}
    (h : matchDayMonNumAt n1 l = some (d, w, y)) :
    (d.data.length = n1 ∧ ∀ c ∈ d.data, c.isDigit = true) ∧
      (y.data.length = 4 ∧ ∀ c ∈ y.data, c.isDigit = true) := by
  simp only [matchDayMonNumAt, bind, Option.bind_eq_some] at h
  obtain ⟨⟨dd, r1⟩, h1, h⟩ := h
  obtain ⟨⟨w1, r2⟩, h2, h⟩ := h
  obtain ⟨⟨w2, r3⟩, h3, h⟩ := h
  obtain ⟨⟨w3, r4⟩, h4, h⟩ := h
  obtain ⟨⟨dy, r5⟩, h5, h⟩ := h
  simp only [pure, Option.some.injEq, Prod.mk.injEq] at h
  obtain ⟨hd, hw, hy⟩ := h
  subst hd hy
  exact ⟨takeDigits_spec h1, takeDigits_spec h5⟩

theorem matchDayMonAt_spec {l : List Char} {g : String × String × String}
    (h : matchDayMonAt l = some g) :
    ((g.1.data.length = 1 ∨ g.1.data.length = 2) ∧
        ∀ c ∈ g.1.data, c.isDigit = true) ∧
      (g.2.2.data.length = 4 ∧ ∀ c ∈ g.2.2.data, c.isDigit = true) := by
  obtain ⟨d, w, y⟩ := g
  simp only [matchDayMonAt] at h
  rcases orElseSome h with h | h
  · obtain ⟨⟨l1, d1⟩, hy⟩ := matchDayMonNumAt_spec h
    exact ⟨⟨Or.inr l1, d1⟩, hy⟩
  · obtain ⟨⟨l1, d1⟩, hy⟩ := matchDayMonNumAt_spec h
    exact ⟨⟨Or.inl l1, d1⟩, hy⟩

theorem matchMonDayNumAt_spec {n2 : Nat} {l : List Char} {w d y : String}
    (h : matchMonDayNumAt n2 l = some (w, d, y)) :
    (d.data.length = n2 ∧ ∀ c ∈ d.data, c.isDigit = true) ∧
      (y.data.length = 4 ∧ ∀ c ∈ y.data, c.isDigit = true) := by
  simp only [matchMonDayNumAt, bind, Option.bind_eq_some] at h
  obtain ⟨⟨w1, r1⟩, h1, h⟩ := h
  obtain ⟨⟨w2, r2⟩, h2, h⟩ := h
  obtain ⟨⟨dd, r3⟩, h3, h⟩ := h
  obtain ⟨⟨w3, r4⟩, h4, h⟩ := h
  obtain ⟨⟨dy, r5⟩, h5, h⟩ := h
  simp only [pure, Option.some.injEq, Prod.mk.injEq] at h
  obtain ⟨hw, hd, hy⟩ := h
  subst hd hy
  exact ⟨takeDigits_spec h3, takeDigits_spec h5⟩

theorem matchMonDayAt_spec {l : List Char} {g : String × String × String}
    (h : matchMonDayAt l = some g) :
    ((g.2.1.data.length = 1 ∨ g.2.1.data.length = 2) ∧
        ∀ c ∈ g.2.1.data, c.isDigit = true) ∧
      (g.2.2.data.length = 4 ∧ ∀ c ∈ g.2.2.data, c.isDigit = true) := by
  obtain ⟨w, d, y⟩ := g
  simp only [matchMonDayAt] at h
  rcases orElseSome h with h | h
  · obtain ⟨⟨l1, d1⟩, hy⟩ := matchMonDayNumAt_spec h
    exact ⟨⟨Or.inr l1, d1⟩, hy⟩
  · obtain ⟨⟨l1, d1⟩, hy⟩ := matchMonDayNumAt_spec h
    exact ⟨⟨Or.inl l1, d1⟩, hy⟩

theorem searchA_ex {α : Type} {f : List Char → Option α} {l : List Char} {x : α}
    (h : searchA f l = some x) : ∃ t, f t = some x := by
  induction l with
  | nil => exact ⟨[], h⟩
  | cons c cs ih =>
    simp only [searchA] at h
    rcases orElseSome h with h | h
    · exact ⟨c :: cs, h⟩
    · exact ih h

theorem lookupMonth_two_digits {tbl : List (String × String)} {w mn : String}
    (htbl : ∀ p ∈ tbl, p.2.data.length = 2 ∧ ∀ c ∈ p.2.data, c.isDigit = true)
    (h : lookupMonth tbl w = some mn) :
    ∃ a b, mn.data = [a, b] ∧ a.isDigit = true ∧ b.isDigit = true := by
  simp only [lookupMonth, Option.map_eq_some'] at h
  obtain ⟨p, hp, hmn⟩ := h
  have hmem := List.mem_of_find?_eq_some hp
  obtain ⟨hlen, hdig⟩ := htbl p hmem
  subst hmn
  obtain ⟨a, b, hab⟩ := List.length_eq_two.1 hlen
  exact ⟨a, b, hab, hdig a (by simp [hab]), hdig b (by simp [hab])⟩

theorem monthNamesDM_digits :
    ∀ p ∈ monthNamesDM, p.2.data.length = 2 ∧ ∀ c ∈ p.2.data, c.isDigit = true := by
  decide

theorem monthNamesMD_digits :
    ∀ p ∈ monthNamesMD, p.2.data.length = 2 ∧ ∀ c ∈ p.2.data, c.isDigit = true := by
  decide

theorem parse_date_shape {s r : String} (h : parse_date s = some r) :
    isIsoShaped r = true ∧ r.length = 10 := by
  by_cases h0 : s = ""
  · rw [h0] at h
    simp [parse_date] at h
  · simp only [parse_date, if_neg h0] at h
    rcases orElseSome h with h | h
    · simp only [Option.map_eq_some'] at h
      obtain ⟨g, hg, hr⟩ := h
      obtain ⟨t, ht⟩ := searchA_ex hg
      obtain ⟨⟨ld, dd⟩, ⟨lm, dm⟩, ⟨ly, dy⟩⟩ := matchDMYAt_spec ht
      subst hr
      exact iso_of_parts (four_digits_of ly dy) (zfill2_shape dm lm)
        (zfill2_shape dd ld)
    rcases orElseSome h with h | h
    · simp only [Option.map_eq_some'] at h
      obtain ⟨g, hg, hr⟩ := h
      obtain ⟨t, ht⟩ := searchA_ex hg
      obtain ⟨⟨ld, dd⟩, ⟨lm, dm⟩, ⟨ly, dy⟩⟩ := matchDMYAt_spec ht
      subst hr
      exact iso_of_parts (four_digits_of ly dy) (zfill2_shape dm lm)
        (zfill2_shape dd ld)
    rcases orElseSome h with h | h
    · simp only [Option.map_eq_some'] at h
      obtain ⟨g, hg, hr⟩ := h
      obtain ⟨t, ht⟩ := searchA_ex hg
      obtain ⟨⟨ly, dy⟩, ⟨lm, dm⟩, ⟨ld, dd⟩⟩ := matchIsoAt_spec ht
      subst hr
      exact iso_of_parts (four_digits_of ly dy) (zfill2_shape dm lm)
        (zfill2_shape dd ld)
    rcases orElseSome h with h | h
    · simp only [Option.bind_eq_some] at h
      obtain ⟨g, hg, hr⟩ := h
      obtain ⟨t, ht⟩ := searchA_ex hg
      obtain ⟨⟨ld, dd⟩, ⟨ly, dy⟩⟩ := matchDayMonAt_spec ht
      simp only [Option.map_eq_some'] at hr
      obtain ⟨mn, hmn, hr⟩ := hr
      subst hr
      exact iso_of_parts (four_digits_of ly dy)
        (lookupMonth_two_digits monthNamesDM_digits hmn) (zfill2_shape dd ld)
    · simp only [Option.bind_eq_some] at h
      obtain ⟨g, hg, hr⟩ := h
      obtain ⟨t, ht⟩ := searchA_ex hg
      obtain ⟨⟨ld, dd⟩, ⟨ly, dy⟩⟩ := matchMonDayAt_spec ht
      simp only [Option.map_eq_some'] at hr
      obtain ⟨mn, hmn, hr⟩ := hr
      subst hr
      exact iso_of_parts (four_digits_of ly dy)
        (lookupMonth_two_digits monthNamesMD_digits hmn) (zfill2_shape dd ld)

/-- Claim C10: `parse_date` is total and returns either `none` or a
10-character string of shape dddd-dd-dd; the numeric components are not
range-checked, so `"99/99/2024"` yields `"2024-99-99"` rather than
`none`. -/
theorem c10_parse_date_total_shape :
    parse_date "99/99/2024" = some "2024-99-99" ∧
      ∀ s : String, parse_date s = none ∨
        ∃ r, parse_date s = some r ∧ isIsoShaped r = true ∧ r.length = 10 := by
  refine ⟨by decide, ?_⟩
  intro s
  match h : parse_date s with
  | none => exact Or.inl rfl
  | some r =>
    obtain ⟨h1, h2⟩ := parse_date_shape h
    exact Or.inr ⟨r, rfl, h1, h2⟩

/-! ## Lemmas about validation and row parsing -/

theorem matchExcept_some {X : Except String ValidatedApp} {v : ValidatedApp}
    (h : (match X with | .error _ => none | .ok w => some w) = some v) :
    X = .ok v := by
  cases X with
  | error e => simp at h
  | ok w =>
    simp only [Option.some.injEq] at h
    rw [h]

theorem validate_ok_spec {d : RawApp} {v : ValidatedApp}
    (h : validate_application_data d = .ok v) :
    v = { project_id := clean_text d.project_id
          borough := clean_text d.borough
          title := clean_text d.title
          address := clean_text d.address
          submission_date := parse_date_opt d.submission_date
          application_url :=
            if is_valid_url d.application_url then some d.application_url else none
          detected_keywords := d.detected_keywords
          source_url :=
            if is_valid_url d.source_url then some d.source_url else none } := by
  simp only [validate_application_data] at h
  split at h
  · cases h
  · split at h
    · cases h
    · cases h
      rfl

theorem parseIdox_some_spec {borough base_url search_url : String}
    {cells : List Cell} {details : String} {v : ValidatedApp}
    (h : parse_application_row borough base_url search_url cells details = some v) :
    ∃ lnk, rowLink cells = some lnk ∧
      is_valid_project_id (clean_text lnk.text) = true ∧
      v.detected_keywords = detect_keywords (some details) MONITORING_KEYWORDS ∧
      v.detected_keywords ≠ [] ∧
      v.application_url =
        (if is_valid_url (urljoin base_url lnk.href)
          then some (urljoin base_url lnk.href) else none) := by
  match cells with
  | [] => simp [parse_application_row] at h
  | [c0] => simp [parse_application_row] at h
  | [c0, c1] => simp [parse_application_row] at h
  | [c0, c1, c2] => simp [parse_application_row] at h
  | c0 :: c1 :: c2 :: c3 :: rest =>
    simp only [parse_application_row] at h
    cases hl : c0.link with
    | none =>
      simp only [hl] at h
      exact Option.noConfusion h
    | some lnk =>
      simp only [hl] at h
      refine ⟨lnk, by simp [rowLink, hl], ?_⟩
      split at h
      · cases h
      · rename_i hvalid
        split at h
        · cases h
        · rename_i hkw
          have hok := matchExcept_some h
          have hv := validate_ok_spec hok
          rw [hv]
          simp only [Bool.not_eq_true', Bool.not_eq_false] at hvalid
          exact ⟨hvalid, rfl, hkw, rfl⟩

theorem parseIdox_invalid_pid {borough base_url search_url : String}
    {cells : List Cell} {details : String} {lnk : Link}
    (hl : rowLink cells = some lnk)
    (hv : is_valid_project_id (clean_text lnk.text) = false) :
    parse_application_row borough base_url search_url cells details = none := by
  match cells with
  | [] => rfl
  | [c0] => rfl
  | [c0, c1] => rfl
  | [c0, c1, c2] => rfl
  | c0 :: c1 :: c2 :: c3 :: rest =>
    simp only [rowLink] at hl
    simp only [parse_application_row, hl, hv]
    rfl

theorem parseSouthwark_keywords {borough base_url search_url : String}
    {cells : List Cell} {details : String} {v : ValidatedApp}
    (h : parse_southwark_row borough base_url search_url cells details = some v) :
    v.detected_keywords = detect_keywords (some details) MONITORING_KEYWORDS ∧
      v.detected_keywords ≠ [] := by
  match cells with
  | [] => simp [parse_southwark_row] at h
  | [c0] => simp [parse_southwark_row] at h
  | [c0, c1] => simp [parse_southwark_row] at h
  | c0 :: c1 :: c2 :: rest =>
    simp only [parse_southwark_row] at h
    cases hl : c0.link with
    | none =>
      simp only [hl] at h
      exact Option.noConfusion h
    | some lnk =>
      simp only [hl] at h
      split at h
      · cases h
      · split at h
        · cases h
        · rename_i hkw
          have hok := matchExcept_some h
          have hv := validate_ok_spec hok
          rw [hv]
          exact ⟨rfl, hkw⟩

theorem parseSelenium_keywords {borough base_url search_url : String}
    {cells : List Cell} {v : ValidatedApp}
    (h : parse_selenium_row borough base_url search_url cells = some v) :
    v.detected_keywords ≠ [] := by
  match cells with
  | [] => simp [parse_selenium_row] at h
  | [c0] => simp [parse_selenium_row] at h
  | [c0, c1] => simp [parse_selenium_row] at h
  | c0 :: c1 :: c2 :: rest =>
    simp only [parse_selenium_row] at h
    cases hl : c0.link with
    | none =>
      simp only [hl] at h
      exact Option.noConfusion h
    | some lnk =>
      simp only [hl] at h
      split at h
      · cases h
      · split at h
        · cases h
        · rename_i hkw
          have hok := matchExcept_some h
          have hv := validate_ok_spec hok
          rw [hv]
          exact hkw

theorem parseIdox_empty_details (borough base_url search_url : String)
    (cells : List Cell) :
    parse_application_row borough base_url search_url cells "" = none := by
  match cells with
  | [] => rfl
  | [c0] => rfl
  | [c0, c1] => rfl
  | [c0, c1, c2] => rfl
  | c0 :: c1 :: c2 :: c3 :: rest =>
    cases hl : c0.link with
    | none => simp [parse_application_row, hl]
    | some lnk => simp [parse_application_row, hl, detect_keywords]

theorem parseSouthwark_empty_details (borough base_url search_url : String)
    (cells : List Cell) :
    parse_southwark_row borough base_url search_url cells "" = none := by
  match cells with
  | [] => rfl
  | [c0] => rfl
  | [c0, c1] => rfl
  | c0 :: c1 :: c2 :: rest =>
    cases hl : c0.link with
    | none => simp [parse_southwark_row, hl]
    | some lnk => simp [parse_southwark_row, hl, detect_keywords]

theorem parseSelenium_some_spec {borough base_url search_url : String}
    {cells : List Cell} {v : ValidatedApp}
    (h : parse_selenium_row borough base_url search_url cells = some v) :
    ∃ lnk, rowLink cells = some lnk ∧
      v.application_url =
        (if is_valid_url (urljoin base_url lnk.href)
          then some (urljoin base_url lnk.href) else none) := by
  match cells with
  | [] => simp [parse_selenium_row] at h
  | [c0] => simp [parse_selenium_row] at h
  | [c0, c1] => simp [parse_selenium_row] at h
  | c0 :: c1 :: c2 :: rest =>
    simp only [parse_selenium_row] at h
    cases hl : c0.link with
    | none =>
      simp only [hl] at h
      exact Option.noConfusion h
    | some lnk =>
      simp only [hl] at h
      refine ⟨lnk, by simp [rowLink, hl], ?_⟩
      split at h
      · exact Option.noConfusion h
      · split at h
        · exact Option.noConfusion h
        · have hok := matchExcept_some h
          have hv := validate_ok_spec hok
          rw [hv]

/-! ## Lemmas about deduplication, the keyword loop and bulk insertion -/

theorem dedupAux_mem_spec {l : List ValidatedApp} {seen : List String}
    {a : ValidatedApp} (h : a ∈ dedupAux seen l) :
    a.project_id ≠ "" ∧ a.project_id ∉ seen ∧ a ∈ l ∧
      l.find? (fun x => x.project_id == a.project_id) = some a := by
  induction l generalizing seen with
  | nil => simp [dedupAux] at h
  | cons b bs ih =>
    simp only [dedupAux] at h
    split at h
    · rename_i hb
      simp only [Bool.and_eq_true, decide_eq_true_eq, Bool.not_eq_true'] at hb
      obtain ⟨hbne, hbseen⟩ := hb
      rcases List.mem_cons.1 h with rfl | hmem
      · refine ⟨hbne, ?_, List.mem_cons_self _ _, ?_⟩
        · intro hc
          have hcon : seen.contains a.project_id = true := by simpa using hc
          rw [hcon] at hbseen
          cases hbseen
        · exact List.find?_cons_of_pos _ (by simp)
      · obtain ⟨ha, hseen, hmem2, hfind⟩ := ih hmem
        have hne : a.project_id ≠ b.project_id := fun e => hseen (by simp [e])
        refine ⟨ha, fun hc => hseen (List.mem_cons_of_mem _ hc),
          List.mem_cons_of_mem _ hmem2, ?_⟩
        rw [List.find?_cons_of_neg _
          (by simp only [beq_iff_eq]; exact fun e => hne e.symm)]
        exact hfind
    · rename_i hb
      obtain ⟨ha, hseen, hmem, hfind⟩ := ih h
      have hne : b.project_id ≠ a.project_id := by
        intro e
        have hb2 : ¬b.project_id = "" → b.project_id ∈ seen := by
          simpa [Bool.and_eq_true, decide_eq_true_eq, Bool.not_eq_true'] using hb
        by_cases hbe : b.project_id = ""
        · exact ha (by rw [← e, hbe])
        · exact hseen (by rw [← e]; exact hb2 hbe)
      refine ⟨ha, hseen, List.mem_cons_of_mem _ hmem, ?_⟩
      rw [List.find?_cons_of_neg _ (by simp [hne])]
      exact hfind

theorem dedupAux_pid_nodup (seen : List String) (l : List ValidatedApp) :
    ((dedupAux seen l).map (fun a => a.project_id)).Nodup := by
  induction l generalizing seen with
  | nil => simp [dedupAux]
  | cons b bs ih =>
    simp only [dedupAux]
    split
    · simp only [List.map_cons, List.nodup_cons]
      refine ⟨?_, ih _⟩
      intro hmem
      obtain ⟨a, ha, he⟩ := List.mem_map.1 hmem
      obtain ⟨_, hseen, _, _⟩ := dedupAux_mem_spec ha
      exact hseen (by rw [he]; exact List.mem_cons_self _ _)
    · exact ih _

theorem dedupAux_complete : ∀ (l : List ValidatedApp) (seen : List String)
    (a : ValidatedApp), a ∈ l → a.project_id ≠ "" →
    a.project_id ∈ seen ∨ ∃ b ∈ dedupAux seen l, b.project_id = a.project_id := by
  intro l
  induction l with
  | nil =>
    intro seen a hmem
    cases hmem
  | cons b bs ih =>
    intro seen a hmem ha
    simp only [dedupAux]
    split
    · rename_i hb
      rcases List.mem_cons.1 hmem with rfl | hmem2
      · exact Or.inr ⟨a, List.mem_cons_self _ _, rfl⟩
      · rcases ih (b.project_id :: seen) a hmem2 ha with hi | ⟨c, hc, he⟩
        · rcases List.mem_cons.1 hi with he | hi2
          · exact Or.inr ⟨b, List.mem_cons_self _ _, he.symm⟩
          · exact Or.inl hi2
        · exact Or.inr ⟨c, List.mem_cons_of_mem _ hc, he⟩
    · rename_i hb
      rcases List.mem_cons.1 hmem with rfl | hmem2
      · have hb2 : ¬a.project_id = "" → a.project_id ∈ seen := by
          simpa [Bool.and_eq_true, decide_eq_true_eq, Bool.not_eq_true'] using hb
        exact Or.inl (hb2 ha)
      · exact ih seen a hmem2 ha

theorem dedupAux_sublist (seen : List String) (l : List ValidatedApp) :
    (dedupAux seen l).Sublist l := by
  induction l generalizing seen with
  | nil => simp [dedupAux]
  | cons b bs ih =>
    simp only [dedupAux]
    split
    · exact (ih _).cons₂ b
    · exact (ih _).cons b

theorem scrape_loop_acc_mem {is_running : Bool} {total : Nat}
    {search : String → Except String (List ValidatedApp)} {ks : List String}
    {a : ValidatedApp} (h : a ∈ (scrape_loop is_running total search ks).2) :
    ∃ k apps, search k = .ok apps ∧ a ∈ apps := by
  induction ks with
  | nil => simp [scrape_loop] at h
  | cons k ks ih =>
    simp only [scrape_loop] at h
    split at h
    · simp at h
    · cases hs : search k with
      | ok apps =>
        simp only [hs] at h
        rcases List.mem_append.1 h with h | h
        · exact ⟨k, apps, hs, h⟩
        · exact ih h
      | error e =>
        simp only [hs] at h
        exact ih h

theorem scrape_loop_running (total : Nat)
    (search : String → Except String (List ValidatedApp)) (ks : List String) :
    (scrape_loop true total search ks).1 = ks := by
  induction ks with
  | nil => rfl
  | cons k ks ih =>
    simp only [scrape_loop]
    cases hs : search k <;> simp [hs, ih]

theorem insertOrIgnoreRow_mem {db : List DbRow} {x r : DbRow}
    (h : x ∈ (insertOrIgnoreRow db r).1) : x ∈ db ∨ x = r := by
  simp only [insertOrIgnoreRow] at h
  split at h
  · exact Or.inl h
  · rcases List.mem_append.1 h with h | h
    · exact Or.inl h
    · simp only [List.mem_singleton] at h
      exact Or.inr h

theorem bulk_fold_rows {now : String} (apps : List ValidatedApp) :
    ∀ (db : List DbRow) (n : Nat) (r : DbRow),
      r ∈ (apps.foldl
        (fun (st : List DbRow × Nat) a =>
          let p := insertOrIgnoreRow st.1 (rowOfApp now a)
          (p.1, if p.2 then st.2 + 1 else st.2)) (db, n)).1 →
      r ∈ db ∨ ∃ a ∈ apps, r = rowOfApp now a := by
  induction apps with
  | nil =>
    intro db n r h
    simp only [List.foldl_nil] at h
    exact Or.inl h
  | cons a as ih =>
    intro db n r h
    simp only [List.foldl_cons] at h
    rcases ih _ _ r h with hdb | ⟨b, hb, he⟩
    · rcases insertOrIgnoreRow_mem hdb with hdb | he
      · exact Or.inl hdb
      · exact Or.inr ⟨a, List.mem_cons_self _ _, he⟩
    · exact Or.inr ⟨b, List.mem_cons_of_mem _ hb, he⟩

theorem bulk_insert_rows {apps : List ValidatedApp} {db : List DbRow}
    {now : String} {r : DbRow}
    (h : r ∈ (bulk_insert_applications db apps now).1) :
    r ∈ db ∨ ∃ a ∈ apps, r = rowOfApp now a :=
  bulk_fold_rows apps db 0 r h

/-- Claim C8: after the keyword loop, the accumulated candidate list is
deduplicated by `project_id`, keeping for every occurring id the first
accumulated occurrence (in accumulation order): the result is a sublist of
the input with pairwise-distinct project ids, every kept record is exactly
the first record carrying its id, and every id that occurs (ids are
non-empty in pipeline data) is represented. -/
theorem c8_dedup_first_occurrence (apps : List ValidatedApp)
    (h : ∀ a ∈ apps, a.project_id ≠ "") :
    (dedupByProjectId apps).Sublist apps ∧
      ((dedupByProjectId apps).map (fun a => a.project_id)).Nodup ∧
      (∀ a ∈ dedupByProjectId apps,
        apps.find? (fun x => x.project_id == a.project_id) = some a) ∧
      (∀ a ∈ apps, ∃ b ∈ dedupByProjectId apps, b.project_id = a.project_id) := by
  refine ⟨dedupAux_sublist [] apps, dedupAux_pid_nodup [] apps, ?_, ?_⟩
  · intro a ha
    exact (dedupAux_mem_spec ha).2.2.2
  · intro a ha
    rcases dedupAux_complete apps [] a ha (h a ha) with hc | hc
    · exact absurd hc (List.not_mem_nil _)
    · exact hc

/-- Claim C8 witness: deduplication of a concrete two-record accumulation
sharing one project id keeps only the first record. -/
theorem c8_witness :
    (∀ a ∈ ([⟨"24/AP/0234", "Southwark", "first", "", none, none,
        ["noise monitoring"], none⟩,
      ⟨"24/AP/0234", "Southwark", "second", "", none, none,
        ["dust monitoring"], none⟩] : List ValidatedApp), a.project_id ≠ "") ∧
      ((dedupByProjectId [⟨"24/AP/0234", "Southwark", "first", "", none, none,
          ["noise monitoring"], none⟩,
        ⟨"24/AP/0234", "Southwark", "second", "", none, none,
          ["dust monitoring"], none⟩]).map (fun a => a.project_id)).Nodup :=
  ⟨by decide,
    (c8_dedup_first_occurrence
      [⟨"24/AP/0234", "Southwark", "first", "", none, none,
        ["noise monitoring"], none⟩,
      ⟨"24/AP/0234", "Southwark", "second", "", none, none,
        ["dust monitoring"], none⟩] (by decide)).2.1⟩

/-- Claim C2: a record is produced by a row parser only when its
`detected_keywords` is non-empty (all three parser variants); and every row
the single-borough pipeline persists is either pre-existing or comes from a
final (deduplicated) application, so when the per-keyword search results all
carry non-empty keyword lists, everything persisted does too. -/
theorem c2_nonempty_keywords :
    (∀ (borough base_url search_url : String) (cells : List Cell)
      (details : String) (v : ValidatedApp),
      parse_application_row borough base_url search_url cells details = some v →
      v.detected_keywords ≠ []) ∧
    (∀ (borough base_url search_url : String) (cells : List Cell)
      (details : String) (v : ValidatedApp),
      parse_southwark_row borough base_url search_url cells details = some v →
      v.detected_keywords ≠ []) ∧
    (∀ (borough base_url search_url : String) (cells : List Cell)
      (v : ValidatedApp),
      parse_selenium_row borough base_url search_url cells = some v →
      v.detected_keywords ≠ []) ∧
    (∀ (is_running : Bool) (keywords : List String)
      (search : String → Except String (List ValidatedApp))
      (db : List DbRow) (now : String),
      (∀ k apps, search k = Except.ok apps → ∀ a ∈ apps, a.detected_keywords ≠ []) →
      (∀ a ∈ (scrape_single_borough is_running keywords search db now).final_apps,
        a.detected_keywords ≠ []) ∧
      (∀ r ∈ (scrape_single_borough is_running keywords search db now).db,
        r ∈ db ∨
          ∃ a ∈ (scrape_single_borough is_running keywords search db now).final_apps,
            r = rowOfApp now a)) := by
  refine ⟨?_, ?_, ?_, ?_⟩
  · intro _ _ _ _ _ v h
    obtain ⟨lnk, _, _, _, hne, _⟩ := parseIdox_some_spec h
    exact hne
  · intro _ _ _ _ _ v h
    exact (parseSouthwark_keywords h).2
  · intro _ _ _ _ v h
    exact parseSelenium_keywords h
  · intro ir ks search db now hs
    constructor
    · intro a ha
      have hmem := (dedupAux_mem_spec ha).2.2.1
      obtain ⟨k, apps, hok, hin⟩ := scrape_loop_acc_mem hmem
      exact hs k apps hok a hin
    · intro r hr
      exact bulk_insert_rows hr

/-- Claim C2 witness: a concrete Idox row parse succeeds and the produced
record has non-empty `detected_keywords`. -/
theorem c2_witness :
    parse_application_row "Southwark" "https://planning.southwark.gov.uk"
        "https://planning.southwark.gov.uk/search.do"
        [⟨"", some ⟨"24/AP/0234", "/detail.do?id=1"⟩⟩, ⟨"1 High Street", none⟩,
          ⟨"New tower", none⟩, ⟨"15/01/2024", none⟩]
        "Includes a noise monitoring plan" =
      some ⟨"24/AP/0234", "Southwark", "New tower", "1 High Street",
        some "2024-01-15", some "https://planning.southwark.gov.uk/detail.do?id=1",
        ["noise monitoring"], some "https://planning.southwark.gov.uk/search.do"⟩ ∧
    (⟨"24/AP/0234", "Southwark", "New tower", "1 High Street",
      some "2024-01-15", some "https://planning.southwark.gov.uk/detail.do?id=1",
      ["noise monitoring"],
      some "https://planning.southwark.gov.uk/search.do"⟩ : ValidatedApp).detected_keywords ≠
      [] := by
  have hp : parse_application_row "Southwark" "https://planning.southwark.gov.uk"
      "https://planning.southwark.gov.uk/search.do"
      [⟨"", some ⟨"24/AP/0234", "/detail.do?id=1"⟩⟩, ⟨"1 High Street", none⟩,
        ⟨"New tower", none⟩, ⟨"15/01/2024", none⟩]
      "Includes a noise monitoring plan" =
      some ⟨"24/AP/0234", "Southwark", "New tower", "1 High Street",
        some "2024-01-15", some "https://planning.southwark.gov.uk/detail.do?id=1",
        ["noise monitoring"], some "https://planning.southwark.gov.uk/search.do"⟩ := by
    decide
  exact ⟨hp, c2_nonempty_keywords.1 _ _ _ _ _ _ hp⟩

/-- Claim C9, counterexample: the Selenium parser detects keywords on the
listing text itself (no detail fetch), so a candidate whose computed
application URL is invalid is not dropped there — a record is produced with
the invalid URL merely omitted from it, contradicting the claim that every
invalid-URL candidate yields no output record. -/
theorem c9_counterexample :
    is_valid_url (urljoin "https://planning.southwark.gov.uk" "javascript:void(0)") =
      false ∧
    parse_selenium_row "Southwark" "https://planning.southwark.gov.uk"
      "https://planning.southwark.gov.uk/online-applications"
      [⟨"", some ⟨"24/AP/0234", "javascript:void(0)"⟩⟩, ⟨"1 High Street", none⟩,
        ⟨"Noise monitoring works", none⟩] =
      some ⟨"24/AP/0234", "Southwark", "Noise monitoring works", "1 High Street",
        none, none, ["noise monitoring"],
        some "https://planning.southwark.gov.uk/online-applications"⟩ := by
  constructor
  · decide
  · decide

/-- Claim C9 (amended): a candidate with an implausible project id is
silently dropped (no record, no error).  A candidate whose computed
application URL fails validation is dropped by the Idox and Southwark
parsers, but only as a side effect of the failed detail fetch: fetching an
invalid URL yields no response, hence empty detail text and no keyword
match — still silently, with no error surfaced.  The Selenium parser
performs no fetch and does not drop such a candidate: when it produces a
record, an invalid `application_url` is simply omitted from it (and
likewise for any produced Idox record); no error is surfaced in any
case. -/
theorem c9_validation_failures (borough base_url search_url : String)
    (cells : List Cell) (details : String) (lnk : Link) (v : ValidatedApp)
    (fetch : String → Option String)
    (hfetch : ∀ u, is_valid_url u = false → fetch u = none)
    (hl : rowLink cells = some lnk) :
    (is_valid_project_id (clean_text lnk.text) = false →
      parse_application_row borough base_url search_url cells details = none) ∧
    (is_valid_url (urljoin base_url lnk.href) = false →
      parse_application_row_live borough base_url search_url cells fetch = none ∧
        parse_southwark_row_live borough base_url search_url cells fetch = none) ∧
    (parse_selenium_row borough base_url search_url cells = some v →
      v.application_url =
        (if is_valid_url (urljoin base_url lnk.href)
          then some (urljoin base_url lnk.href) else none)) ∧
    (parse_application_row borough base_url search_url cells details = some v →
      v.application_url =
        (if is_valid_url (urljoin base_url lnk.href)
          then some (urljoin base_url lnk.href) else none)) := by
  refine ⟨parseIdox_invalid_pid hl, ?_, ?_, ?_⟩
  · intro hurl
    have hf : fetch (urljoin base_url lnk.href) = none := hfetch _ hurl
    constructor
    · simp only [parse_application_row_live, hl, hf, get_application_details]
      exact parseIdox_empty_details borough base_url search_url cells
    · simp only [parse_southwark_row_live, hl, hf, get_application_details]
      exact parseSouthwark_empty_details borough base_url search_url cells
  · intro h
    obtain ⟨lnk2, hl2, hurl⟩ := parseSelenium_some_spec h
    rw [hl] at hl2
    cases hl2
    exact hurl
  · intro h
    obtain ⟨lnk2, hl2, _, _, _, hurl⟩ := parseIdox_some_spec h
    rw [hl] at hl2
    cases hl2
    exact hurl

/-- Claim C9 witness: the amended statement applied concretely — a short-id
row is dropped outright, and an invalid-URL row is dropped by the live Idox
path once its detail fetch (which fails for invalid URLs) is composed in. -/
theorem c9_witness :
    parse_application_row "Southwark" "https://planning.southwark.gov.uk" "u"
      [⟨"", some ⟨"OK", "x.do"⟩⟩, ⟨"1 High Street", none⟩, ⟨"New tower", none⟩,
        ⟨"15/01/2024", none⟩] "Includes a noise monitoring plan" = none ∧
    parse_application_row_live "Southwark" "https://planning.southwark.gov.uk" "u"
      [⟨"", some ⟨"24/AP/0234", "javascript:void(0)"⟩⟩, ⟨"1 High Street", none⟩,
        ⟨"New tower", none⟩, ⟨"15/01/2024", none⟩] (fun _ => none) = none := by
  have h1 := c9_validation_failures "Southwark" "https://planning.southwark.gov.uk"
    "u" [⟨"", some ⟨"OK", "x.do"⟩⟩, ⟨"1 High Street", none⟩, ⟨"New tower", none⟩,
      ⟨"15/01/2024", none⟩] "Includes a noise monitoring plan" ⟨"OK", "x.do"⟩
    ⟨"", "", "", "", none, none, [], none⟩ (fun _ => none) (fun u hu => rfl)
    (by decide)
  have h2 := c9_validation_failures "Southwark" "https://planning.southwark.gov.uk"
    "u" [⟨"", some ⟨"24/AP/0234", "javascript:void(0)"⟩⟩, ⟨"1 High Street", none⟩,
      ⟨"New tower", none⟩, ⟨"15/01/2024", none⟩] "Includes a noise monitoring plan"
    ⟨"24/AP/0234", "javascript:void(0)"⟩ ⟨"", "", "", "", none, none, [], none⟩
    (fun _ => none) (fun u hu => rfl) (by decide)
  exact ⟨h1.1 (by decide), (h2.2.1 (by decide)).1⟩

/-! ## Claim C3 (idempotent ingestion) -/

theorem keyCount_eq_zero {db : List DbRow} {p q : String}
    (h : hasKey db p q = false) : keyCount db p q = 0 := by
  simp only [hasKey, List.any_eq_false] at h
  simp only [keyCount, List.countP_eq_zero]
  exact h

/-- Claim C3: inserting an application into a table not containing its
`(project_id, borough)` key reports `(total, new) = (1, 1)` and stores
exactly one row under that key; re-inserting any application with the same
key reports `(1, 0)`, leaves the table unchanged, and still stores exactly
one such row — insert-or-ignore never errors on duplicates. -/
theorem c3_idempotent_ingestion (db : List DbRow) (a b : ValidatedApp)
    (now1 now2 : String)
    (hpid : b.project_id = a.project_id) (hbor : b.borough = a.borough)
    (h0 : hasKey db a.project_id a.borough = false) :
    (bulk_insert_applications db [a] now1).2.1 = 1 ∧
    (bulk_insert_applications db [a] now1).2.2 = 1 ∧
    keyCount (bulk_insert_applications db [a] now1).1 a.project_id a.borough = 1 ∧
    (bulk_insert_applications (bulk_insert_applications db [a] now1).1 [b] now2).2.1 = 1 ∧
    (bulk_insert_applications (bulk_insert_applications db [a] now1).1 [b] now2).2.2 = 0 ∧
    (bulk_insert_applications (bulk_insert_applications db [a] now1).1 [b] now2).1 =
      (bulk_insert_applications db [a] now1).1 ∧
    keyCount (bulk_insert_applications (bulk_insert_applications db [a] now1).1 [b]
      now2).1 a.project_id a.borough = 1 := by
  have hrow : (rowOfApp now1 a).project_id = a.project_id ∧
      (rowOfApp now1 a).borough = a.borough := ⟨rfl, rfl⟩
  have h1 : bulk_insert_applications db [a] now1 =
      (db ++ [rowOfApp now1 a], 1, 1) := by
    simp only [bulk_insert_applications, List.foldl_cons, List.foldl_nil,
      insertOrIgnoreRow, rowOfApp]
    rw [if_neg]
    · rfl
    · simp [h0]
  have hkey1 : keyCount (db ++ [rowOfApp now1 a]) a.project_id a.borough = 1 := by
    simp only [keyCount, List.countP_append]
    rw [show db.countP (fun r => r.project_id == a.project_id &&
        r.borough == a.borough) = 0 from keyCount_eq_zero h0]
    simp [List.countP_cons, rowOfApp]
  have hhas : hasKey (db ++ [rowOfApp now1 a]) b.project_id b.borough = true := by
    simp only [hasKey, hpid, hbor, List.any_eq_true, List.mem_append,
      List.mem_singleton]
    exact ⟨rowOfApp now1 a, Or.inr rfl, by simp [rowOfApp]⟩
  have h2 : bulk_insert_applications (db ++ [rowOfApp now1 a]) [b] now2 =
      (db ++ [rowOfApp now1 a], 1, 0) := by
    simp only [bulk_insert_applications, List.foldl_cons, List.foldl_nil,
      insertOrIgnoreRow]
    rw [if_pos]
    · rfl
    · show hasKey (db ++ [rowOfApp now1 a]) (rowOfApp now2 b).project_id
        (rowOfApp now2 b).borough = true
      exact hhas
  rw [h1]
  refine ⟨rfl, rfl, hkey1, ?_, ?_, ?_, ?_⟩
  · rw [h2]
  · rw [h2]
  · rw [h2]
  · rw [h2]
    exact hkey1

/-- Claim C3 witness: the double insert evaluated on the concrete
`(project_id="24/AP/0234", borough="Southwark")` application and an empty
table. -/
theorem c3_witness :
    hasKey [] "24/AP/0234" "Southwark" = false ∧
      (bulk_insert_applications [] [⟨"24/AP/0234", "Southwark", "t", "", none,
        none, ["noise monitoring"], none⟩] "t1").2.2 = 1 ∧
      (bulk_insert_applications
        (bulk_insert_applications [] [⟨"24/AP/0234", "Southwark", "t", "", none,
          none, ["noise monitoring"], none⟩] "t1").1
        [⟨"24/AP/0234", "Southwark", "t", "", none, none,
          ["noise monitoring"], none⟩] "t2").2.2 = 0 := by
  have h := c3_idempotent_ingestion []
    ⟨"24/AP/0234", "Southwark", "t", "", none, none, ["noise monitoring"], none⟩
    ⟨"24/AP/0234", "Southwark", "t", "", none, none, ["noise monitoring"], none⟩
    "t1" "t2" rfl rfl (by decide)
  exact ⟨by decide, h.2.1, h.2.2.2.2.1⟩

/-! ## Claims C6 and C4 (manager behavior) -/

/-- Claim C6 (code bug): on a fresh manager (`is_running = False`, as in
the standalone `scrape_borough` entry point), the keyword loop breaks
before the first search whenever more than one keyword is configured, so a
standalone two-keyword scrape issues zero searches; only a one-keyword
standalone run, or a run inside `scrape_all_boroughs` (`is_running =
True`), searches every keyword in order. -/
theorem c6_standalone_keyword_searches :
    (scrape_single_borough false ["noise monitoring", "vibration monitoring"]
      (fun _ => .ok []) [] "t").searched = [] ∧
    (scrape_single_borough false ["noise monitoring"]
      (fun _ => .ok []) [] "t").searched = ["noise monitoring"] ∧
    ∀ keywords : List String,
      (scrape_single_borough true keywords (fun _ => .ok []) [] "t").searched =
        keywords := by
  refine ⟨by decide, by decide, ?_⟩
  intro ks
  simp only [scrape_single_borough]
  exact scrape_loop_running ks.length _ ks

theorem scrape_all_eq_map (workers : String → Except String BoroughResult)
    (order : List String) :
    scrape_all_boroughs workers order = order.map (collectResult workers) := rfl

/-- Claim C4: under any completion order of the worker pool, `scrape_all`
yields exactly one result per configured borough; a borough whose worker
raises contributes a failed result carrying the (non-empty) error message,
a borough whose worker succeeds contributes that worker result marked
successful, and the batch itself is a total function — it never raises.
The final two conjuncts cover the inner boundary: an exception escaping a
borough run body is already converted by `scrape_single_guard` (the outer
try/except of `scrape_single_borough`) into a failed result for that
borough, and a completing run into a successful one. -/
theorem c4_worker_isolation (boroughs order : List String)
    (workers : String → Except String BoroughResult)
    (hnd : boroughs.Nodup) (hperm : order.Perm boroughs)
    (hw : ∀ b ∈ boroughs,
      match workers b with
      | .ok r => r.success = true ∧ r.borough = b
      | .error e => e ≠ "") :
    (scrape_all_boroughs workers order).length = boroughs.length ∧
    ((scrape_all_boroughs workers order).map (fun r => r.borough)).Perm boroughs ∧
    (∀ b ∈ boroughs,
      ((scrape_all_boroughs workers order).filter
        (fun r => r.borough == b)).length = 1) ∧
    (∀ r ∈ scrape_all_boroughs workers order,
      match workers r.borough with
      | .ok vv => r = vv ∧ r.success = true
      | .error e => r.success = false ∧ r.error = some e ∧ e ≠ "") ∧
    (∀ b e : String,
      scrape_single_guard b (.error e) =
        { success := false, borough := b, error := some e
          total_found := none, new_applications := none }) ∧
    (∀ (b : String) (out : SingleScrapeOutcome),
      (scrape_single_guard b (.ok out)).success = true ∧
        (scrape_single_guard b (.ok out)).borough = b) := by
  have hstep : ∀ b ∈ boroughs, (collectResult workers b).borough = b := by
    intro b hb
    have hx := hw b hb
    cases hwb : workers b with
    | ok r =>
      simp only [collectResult, hwb] at hx ⊢
      exact hx.2
    | error e =>
      simp only [collectResult, hwb]
  have hmap : ∀ l : List String, (∀ x ∈ l, x ∈ boroughs) →
      (l.map (collectResult workers)).map (fun r => r.borough) = l := by
    intro l
    induction l with
    | nil => intro _; rfl
    | cons x xs ih =>
      intro hsub
      have h1 := hstep x (hsub x (List.mem_cons_self _ _))
      have h2 := ih (fun y hy => hsub y (List.mem_cons_of_mem _ hy))
      simp only [List.map_cons] at h2 ⊢
      rw [h2, h1]
  have hsub : ∀ x ∈ order, x ∈ boroughs := fun x hx => hperm.mem_iff.1 hx
  rw [scrape_all_eq_map]
  refine ⟨?_, ?_, ?_, ?_, fun b e => rfl, fun b out => ⟨rfl, rfl⟩⟩
  · rw [List.length_map, hperm.length_eq]
  · rw [hmap order hsub]
    exact hperm
  · intro b hb
    rw [← List.countP_eq_length_filter]
    have hcm := List.countP_map (fun s => s == b)
      (fun r : BoroughResult => r.borough) (order.map (collectResult workers))
    rw [hmap order hsub] at hcm
    have hcomp : ((fun s => s == b) ∘ fun r : BoroughResult => r.borough) =
        fun r : BoroughResult => r.borough == b := rfl
    rw [hcomp] at hcm
    rw [← hcm, ← List.count_eq_countP, hperm.count_eq,
      List.count_eq_one_of_mem hnd hb]
  · intro r hr
    simp only [List.mem_map] at hr
    obtain ⟨b, hb, rfl⟩ := hr
    have hbB : b ∈ boroughs := hperm.mem_iff.1 hb
    have hx := hw b hbB
    rw [hstep b hbB]
    cases hwb : workers b with
    | ok v =>
      simp only [hwb] at hx
      simp [collectResult, hwb, hx.1]
    | error e =>
      simp only [hwb] at hx
      simp [collectResult, hwb, hx]

/-- Claim C4 witness: three boroughs, one configured to always fail, under
a completion order different from the configured order — three results, one
per borough. -/
theorem c4_witness :
    (scrape_all_boroughs
      (fun b => if b = "Camden" then .error "simulated failure"
        else .ok ⟨true, b, none, some 0, some 0⟩)
      ["Westminster", "Camden", "Southwark"]).length = 3 ∧
    ((scrape_all_boroughs
      (fun b => if b = "Camden" then .error "simulated failure"
        else .ok ⟨true, b, none, some 0, some 0⟩)
      ["Westminster", "Camden", "Southwark"]).filter
        (fun r => r.borough == "Camden")).length = 1 := by
  have h := c4_worker_isolation ["Camden", "Westminster", "Southwark"]
    ["Westminster", "Camden", "Southwark"]
    (fun b => if b = "Camden" then .error "simulated failure"
      else .ok ⟨true, b, none, some 0, some 0⟩)
    (by decide) (by decide)
    (by
      intro b hb
      fin_cases hb
      · show ("simulated failure" : String) ≠ ""
        decide
      · exact ⟨rfl, rfl⟩
      · exact ⟨rfl, rfl⟩)
  exact ⟨h.1, h.2.2.1 "Camden" (by decide)⟩

end PlanningScraper
